import Mathlib

/-!
Verification of the tempo-backend calendar sync reconciliation engine.

The relational store (tables `users`, `calendar_events`, `event_contacts`) is embedded
as lists of rows; the operations of `CalendarEvent`, `EventContact`, `User` and
`CalendarService` are embedded as state-passing functions, with transaction rollback
made explicit (a failed transaction returns the store unchanged) and with failure
points injectable through an extra parameter.
-/

namespace Tempo

/-- An event element of the client sync payload (the `events` array of the sync
request body). String timestamps are ISO-8601 texts as sent by the client. -/
structure SyncEvent where
  id : String
  title : String
  startDate : String
  endDate : String
  isAllDay : Bool
  notes : Option String
  location : Option String
  calendarId : String
  calendarName : String
  fetchedAt : String
  deriving Repr, DecidableEq

/-- Models the source's datetime conversion
`new Date(s).toISOString().slice(0, 19).replace(..)` for timestamps already in
normalized ISO-8601 UTC form, on which `new Date(s).toISOString()` returns the
input itself: keep the first 19 characters and turn the central separator
character into a space. -/
def mysqlDateTime (s : String) : String :=
  String.mk ((s.data.take 19).map (fun c => if c = 'T' then ' ' else c))

/-- Models the JavaScript pattern `x || null` on an optional string: an absent value
stays absent and the empty string, being falsy, collapses to null as well. -/
def orNull : Option String → Option String
  | some s => if s.isEmpty then none else some s
  | none => none

/-- A row of the `calendar_events` table. `rid` is the auto-increment primary key
column `id`; the purely DB-managed audit columns `created_at` and `updated_at` are
not modelled. -/
structure EventRow where
  rid : Nat
  event_id : String
  user_id : Nat
  title : String
  start_date : String
  end_date : String
  is_all_day : Bool
  notes : Option String
  location : Option String
  calendar_id : String
  calendar_name : String
  firebase_uid : String
  fetched_at : String
  deriving Repr, DecidableEq

/-- A row of the `event_contacts` table; `event_id` is a foreign key to
`calendar_events.id` declared ON DELETE CASCADE. The JSON text columns are modelled
by the list values they serialize. -/
structure ContactRow where
  rid : Nat
  event_id : Nat
  contact_id : String
  contact_name : String
  contact_emails : List String
  contact_phone_numbers : List String
  deriving Repr, DecidableEq

/-- A row of the `users` table (the columns the modelled operations touch). -/
structure UserRow where
  id : Nat
  firebase_uid : String
  email : String
  display_name : Option String
  photo_url : Option String
  email_verified : Bool
  deriving Repr, DecidableEq

/-- The relational store: the three tables together with their auto-increment
counters. -/
structure DB where
  users : List UserRow
  events : List EventRow
  contacts : List ContactRow
  nextUserId : Nat
  nextEventRid : Nat
  nextContactRid : Nat
  deriving Repr, DecidableEq

/-- The ON DUPLICATE KEY UPDATE branch of the sync upsert statement: overwrite every
mutable column from the snapshot event while `id`, `event_id` and `user_id` stay. -/
def updateRow (r : EventRow) (firebaseUid : String) (e : SyncEvent) : EventRow :=
  { r with
    title := e.title
    start_date := mysqlDateTime e.startDate
    end_date := mysqlDateTime e.endDate
    is_all_day := e.isAllDay
    notes := orNull e.notes
    location := orNull e.location
    calendar_id := e.calendarId
    calendar_name := e.calendarName
    firebase_uid := firebaseUid
    fetched_at := mysqlDateTime e.fetchedAt }

/-- The INSERT branch of the sync upsert statement: a fresh `calendar_events` row
carrying the snapshot event's values for the given owner. -/
def newRow (rid : Nat) (userId : Nat) (firebaseUid : String) (e : SyncEvent) : EventRow :=
  { rid := rid
    event_id := e.id
    user_id := userId
    title := e.title
    start_date := mysqlDateTime e.startDate
    end_date := mysqlDateTime e.endDate
    is_all_day := e.isAllDay
    notes := orNull e.notes
    location := orNull e.location
    calendar_id := e.calendarId
    calendar_name := e.calendarName
    firebase_uid := firebaseUid
    fetched_at := mysqlDateTime e.fetchedAt }

/-- One `INSERT ... ON DUPLICATE KEY UPDATE` statement of `CalendarEvent.syncEvents`,
resolved against the schema's `UNIQUE KEY unique_event_user (event_id, user_id)`. -/
def upsertEvent (db : DB) (userId : Nat) (firebaseUid : String) (e : SyncEvent) : DB :=
  if db.events.any (fun r => r.event_id == e.id && r.user_id == userId) then
    { db with events := db.events.map (fun r =>
        if r.event_id == e.id && r.user_id == userId then updateRow r firebaseUid e
        else r) }
  else
    { db with
      events := db.events ++ [newRow db.nextEventRid userId firebaseUid e]
      nextEventRid := db.nextEventRid + 1 }

/-- The upsert loop of `CalendarEvent.syncEvents` over the whole snapshot, in
payload order. -/
def upsertFold (db : DB) (userId : Nat) (firebaseUid : String)
    (S : List SyncEvent) : DB :=
  S.foldl (fun d e => upsertEvent d userId firebaseUid e) db

/-- A DELETE on `calendar_events` together with the schema's ON DELETE CASCADE on
`event_contacts`: every contact row referencing a deleted event row is deleted
with it. -/
def deleteEventsWhere (db : DB) (p : EventRow → Bool) : DB :=
  { db with
    events := db.events.filter (fun r => !(p r))
    contacts := db.contacts.filter (fun c =>
      !((db.events.filter p).any (fun r => r.rid == c.event_id))) }

/-- Step 2 of `CalendarEvent.syncEvents`: when the payload is non-empty, delete this
owner's rows whose `event_id` is NOT IN the payload ids; when the payload is empty,
delete all of this owner's rows. -/
def pruneStep (db : DB) (userId : Nat) (syncEventIds : List String) : DB :=
  if syncEventIds.length > 0 then
    deleteEventsWhere db
      (fun r => r.user_id == userId && !(syncEventIds.contains r.event_id))
  else
    deleteEventsWhere db (fun r => r.user_id == userId)

/-- The result object `CalendarEvent.syncEvents` returns on success. -/
structure SyncOk where
  success : Bool
  eventsCount : Nat
  deriving Repr, DecidableEq

/-- The committed effect of `CalendarEvent.syncEvents`: every payload event upserted
in order, then the prune delete against the set of payload ids. -/
def syncEventsCommit (db : DB) (events : List SyncEvent) (userId : Nat)
    (firebaseUid : String) : DB :=
  pruneStep (upsertFold db userId firebaseUid events) userId (events.map SyncEvent.id)

/-- `CalendarEvent.syncEvents` with an injected failure point. The transaction
consists of `events.length` upsert statements followed by the prune delete;
`failAt = some k` with `k ≤ events.length` makes the statement of that index throw,
whereupon the catch block rolls the whole transaction back — the store comes back
unchanged — and the error propagates. Otherwise the transaction commits and a
success result carrying `eventsCount = events.length` is returned. -/
def syncEvents (db : DB) (events : List SyncEvent) (userId : Nat)
    (firebaseUid : String) (failAt : Option Nat) : DB × Except String SyncOk :=
  match failAt with
  | some k =>
    if k ≤ events.length then
      (db, Except.error "Error syncing calendar events: statement failed")
    else
      (syncEventsCommit db events userId firebaseUid,
        Except.ok { success := true, eventsCount := events.length })
  | none =>
    (syncEventsCommit db events userId firebaseUid,
      Except.ok { success := true, eventsCount := events.length })

/-- `CalendarEvent.deleteByEventId`: DELETE WHERE event_id AND user_id match, with
the contact cascade. -/
def deleteByEventId (db : DB) (eventId : String) (userId : Nat) : DB :=
  deleteEventsWhere db (fun r => r.event_id == eventId && r.user_id == userId)

/-- `User.findByFirebaseUid`: SELECT FROM users WHERE firebase_uid matches, first
row or null. -/
def findByFirebaseUid (db : DB) (uid : String) : Option UserRow :=
  db.users.find? (fun u => u.firebase_uid == uid)

/-- The per-event validation of `CalendarService.syncCalendarEvents`: an event whose
`id`, `title`, `startDate` or `endDate` is falsy is rejected; on typed string fields
the JavaScript falsiness test is emptiness. -/
def validEvent (e : SyncEvent) : Bool :=
  !e.id.isEmpty && !e.title.isEmpty && !e.startDate.isEmpty && !e.endDate.isEmpty

/-- The sync request body as far as `syncCalendarEvents` destructures it; `none`
models a missing field. -/
structure SyncData where
  events : Option (List SyncEvent)
  userId : Option String
  deriving Repr, DecidableEq

/-- The summary object `syncCalendarEvents` returns on success (its volatile
`timestamp` field is not modelled). -/
structure SyncSummary where
  success : Bool
  message : String
  eventsCount : Nat
  syncType : String
  deriving Repr, DecidableEq

/-- `CalendarService.syncCalendarEvents`: the request-shape checks, the user lookup,
the per-event validation loop, and only then the `CalendarEvent.syncEvents` write
(with the same injected failure point). Every rejecting branch returns the store
unchanged. -/
def syncCalendarEvents (db : DB) (syncData : SyncData) (failAt : Option Nat) :
    DB × Except String SyncSummary :=
  match syncData.events with
  | none => (db, Except.error "Events array is required")
  | some events =>
    match syncData.userId with
    | none => (db, Except.error "User ID is required")
    | some firebaseUid =>
      match findByFirebaseUid db firebaseUid with
      | none => (db, Except.error "User not found")
      | some user =>
        if events.all validEvent then
          match syncEvents db events user.id firebaseUid failAt with
          | (db2, Except.ok r) =>
            (db2, Except.ok
              { success := true
                message := "Successfully synced " ++ toString r.eventsCount
                  ++ " calendar events"
                eventsCount := r.eventsCount
                syncType := "full_sync_with_cleanup" })
          | (db2, Except.error msg) => (db2, Except.error msg)
        else
          (db, Except.error "Invalid event structure: missing required fields")

/-- A contact object attached to a single-event create request. -/
structure ContactIn where
  id : String
  name : String
  emails : List String
  phoneNumbers : List String
  deriving Repr, DecidableEq

/-- The committed effect of the insert loop of `EventContact.createMultiple`: one
`event_contacts` row per contact, in order, with fresh auto-increment ids. -/
def commitContacts (db : DB) (eventRid : Nat) (contacts : List ContactIn) : DB :=
  contacts.foldl (fun d c =>
    { d with
      contacts := d.contacts ++
        [{ rid := d.nextContactRid
           event_id := eventRid
           contact_id := c.id
           contact_name := c.name
           contact_emails := c.emails
           contact_phone_numbers := c.phoneNumbers }]
      nextContactRid := d.nextContactRid + 1 }) db

/-- `EventContact.createMultiple` with an injected failure point. The inserts run in
their own dedicated transaction: `failAt = some k` with `k < contacts.length` makes
the insert of that index throw, that transaction alone is rolled back — the store
comes back unchanged — and the error propagates. An empty contact list returns
immediately without opening a transaction. -/
def createMultipleContacts (db : DB) (eventRid : Nat) (contacts : List ContactIn)
    (failAt : Option Nat) : DB × Except String Unit :=
  if contacts.isEmpty then
    (db, Except.ok ())
  else
    match failAt with
    | some k =>
      if k < contacts.length then
        (db, Except.error "Error creating multiple event contacts: insert failed")
      else
        (commitContacts db eventRid contacts, Except.ok ())
    | none => (commitContacts db eventRid contacts, Except.ok ())

/-- `CalendarEvent.create`: one plain INSERT of a `calendar_events` row, executed as
a single auto-committed statement outside any surrounding transaction. The schema's
`UNIQUE KEY unique_event_user` rejects a duplicate (event_id, user_id) pair with an
error; on success the insert id of the fresh row is returned. -/
def createEvent (db : DB) (row : EventRow) : DB × Except String Nat :=
  if db.events.any (fun r => r.event_id == row.event_id && r.user_id == row.user_id) then
    (db, Except.error "Error creating calendar event: duplicate entry")
  else
    ({ db with
        events := db.events ++ [{ row with rid := db.nextEventRid }]
        nextEventRid := db.nextEventRid + 1 },
      Except.ok db.nextEventRid)

/-- The event object of a single-event create request. -/
structure NewEventIn where
  id : String
  title : String
  startDate : String
  endDate : String
  isAllDay : Bool
  notes : Option String
  location : Option String
  calendarId : String
  calendarName : String
  createdAt : Option String
  deriving Repr, DecidableEq

/-- `CalendarService.createCalendarEvent`: the user lookup, one auto-committed event
INSERT via `CalendarEvent.create`, and then — when contacts are attached — the
contact inserts via `EventContact.createMultiple` in their own separate transaction
(failure injectable through `failContactsAt`). The catch block only wraps the error
message; there is no enclosing transaction around the two storage calls. The absent
`createdAt` default (the current time in the source) is modelled as the empty
string. On success the new row's database id is returned. -/
def createCalendarEvent (db : DB) (firebaseUid : String) (event : NewEventIn)
    (attachedContacts : List ContactIn) (failContactsAt : Option Nat) :
    DB × Except String Nat :=
  match findByFirebaseUid db firebaseUid with
  | none => (db, Except.error "Failed to create calendar event: User not found")
  | some user =>
    let eventData : EventRow :=
      { rid := 0
        event_id := event.id
        user_id := user.id
        title := event.title
        start_date := mysqlDateTime event.startDate
        end_date := mysqlDateTime event.endDate
        is_all_day := event.isAllDay
        notes := orNull event.notes
        location := orNull event.location
        calendar_id := event.calendarId
        calendar_name := event.calendarName
        firebase_uid := firebaseUid
        fetched_at := mysqlDateTime (event.createdAt.getD "") }
    match createEvent db eventData with
    | (db1, Except.error msg) =>
      (db1, Except.error ("Failed to create calendar event: " ++ msg))
    | (db1, Except.ok eventDatabaseId) =>
      match createMultipleContacts db1 eventDatabaseId attachedContacts failContactsAt with
      | (db2, Except.error msg) =>
        (db2, Except.error ("Failed to create calendar event: " ++ msg))
      | (db2, Except.ok _) => (db2, Except.ok eventDatabaseId)

/-- Modelled from the spec: the `users` table schema file is not in the repository;
per the spec, users are unique on the external-identity subject, so an INSERT of an
already-present `firebase_uid` raises a uniqueness violation instead of adding a
row. -/
def insertUser (db : DB) (u : UserRow) : DB × Except String Unit :=
  if db.users.any (fun w => w.firebase_uid == u.firebase_uid) then
    (db, Except.error "ER_DUP_ENTRY: duplicate firebase_uid")
  else
    ({ db with
        users := db.users ++ [{ u with id := db.nextUserId }]
        nextUserId := db.nextUserId + 1 },
      Except.ok ())

/-- The external-identity profile handed to `User.findOrCreate`. -/
structure FirebaseProfile where
  uid : String
  email : String
  displayName : Option String
  photoURL : Option String
  emailVerified : Bool
  deriving Repr, DecidableEq

/-- `User.create`: INSERT the user row, then re-select it by `firebase_uid`. An
insert error propagates — the catch block only logs and rethrows. -/
def createUser (db : DB) (profile : FirebaseProfile) :
    DB × Except String (Option UserRow) :=
  match insertUser db
      { id := 0
        firebase_uid := profile.uid
        email := profile.email
        display_name := orNull profile.displayName
        photo_url := orNull profile.photoURL
        email_verified := profile.emailVerified } with
  | (db1, Except.error msg) => (db1, Except.error msg)
  | (db1, Except.ok _) => (db1, Except.ok (findByFirebaseUid db1 profile.uid))

/-- `User.update`: overwrite email, display_name, photo_url and email_verified of
the row with this `firebase_uid`, then re-select it. -/
def updateUser (db : DB) (profile : FirebaseProfile) : DB × Option UserRow :=
  let db1 := { db with users := db.users.map (fun u =>
    if u.firebase_uid == profile.uid then
      { u with
        email := profile.email
        display_name := orNull profile.displayName
        photo_url := orNull profile.photoURL
        email_verified := profile.emailVerified }
    else u) }
  (db1, findByFirebaseUid db1 profile.uid)

/-- `User.findOrCreate`. The `interleaved` argument models a concurrent caller's
committed insert landing between this caller's SELECT and its INSERT — the race the
spec discusses: when the lookup misses and `interleaved = some w`, the row `w` has
been committed by the other caller (subject to the uniqueness constraint) before
our INSERT runs. The source has no handler for a duplicate-key error from the
INSERT: `User.create` rethrows it and the catch of `findOrCreate` rethrows it
again. -/
def findOrCreate (db : DB) (profile : FirebaseProfile) (interleaved : Option UserRow) :
    DB × Except String (Option UserRow) :=
  match findByFirebaseUid db profile.uid with
  | some _ =>
    let r := updateUser db profile
    (r.1, Except.ok r.2)
  | none =>
    let db1 :=
      match interleaved with
      | some w =>
        if db.users.any (fun x => x.firebase_uid == w.firebase_uid) then db
        else
          { db with
            users := db.users ++ [{ w with id := db.nextUserId }]
            nextUserId := db.nextUserId + 1 }
      | none => db
    createUser db1 profile

/-- The required-key list of the shape check inside `parseCalendarIntent`, exactly
as written in the source. -/
def requiredKeys : List String :=
  ["action", "startDate", "timeStart", "timeEnd", "title", "location", "contacts",
   "recurrence", "notes", "isPrivate"]

/-- The shape check of `parseCalendarIntent` over the key set of the parsed model
output: every required key must be a property of the parsed object. -/
def hasAllRequiredKeys (parsedKeys : List String) : Bool :=
  requiredKeys.all (fun k => parsedKeys.contains k)

/-- The missing-key diff `parseCalendarIntent` computes for its logs: the required
keys absent from the parsed object. -/
def missingKeys (parsedKeys : List String) : List String :=
  requiredKeys.filter (fun k => !(parsedKeys.contains k))

/-- Stated from the claim's words, for comparison with `requiredKeys`: the claim's
fixed required field set names the action kind, BOTH date bounds (startDate and
endDate), both time bounds, title, location, contact references, recurrence, notes
and the privacy flag. -/
def claimedRequiredKeys : List String :=
  ["action", "startDate", "endDate", "timeStart", "timeEnd", "title", "location",
   "contacts", "recurrence", "notes", "isPrivate"]

/-- Membership of an event keyed by (event_id, user_id) in the store, exactly the
existence test the upsert's duplicate-key resolution performs. -/
def hasEvent (db : DB) (userId : Nat) (id : String) : Bool :=
  db.events.any (fun r => r.event_id == id && r.user_id == userId)

/-- This owner's stored event rows. -/
def eventsOf (db : DB) (u : Nat) : List EventRow :=
  db.events.filter (fun r => r.user_id == u)

/-- Does user `u` own an event row whose database id is `x`? -/
def ownsRid (db : DB) (u : Nat) (x : Nat) : Bool :=
  db.events.any (fun r => r.user_id == u && r.rid == x)

/-- The contact rows attached to this owner's stored events. -/
def contactsOf (db : DB) (u : Nat) : List ContactRow :=
  db.contacts.filter (fun c => ownsRid db u c.event_id)

/-- Well-formedness of the event table's auto-increment ids: the database ids are
pairwise distinct and below the counter. -/
def ridsOk (db : DB) : Prop :=
  (db.events.map EventRow.rid).Nodup ∧ ∀ r ∈ db.events, r.rid < db.nextEventRid

/-- Referential integrity of the contact table: every contact row references a live
event row. -/
def noOrphans (db : DB) : Prop :=
  ∀ c ∈ db.contacts, ∃ r ∈ db.events, r.rid = c.event_id

/-- Uniqueness of the natural key: no two stored event rows agree on both
`event_id` and `user_id` (the schema's `UNIQUE KEY unique_event_user`). -/
def natKeyUnique (db : DB) : Prop :=
  db.events.Pairwise (fun a b => ¬(a.event_id = b.event_id ∧ a.user_id = b.user_id))

/-- The last occurrence of an id in the snapshot, in processing order. -/
def lastOcc (S : List SyncEvent) (id : String) : Option SyncEvent :=
  S.reverse.find? (fun e => e.id == id)

/-- The cumulative effect of the upsert loop on one already-present row: every
snapshot event whose id matches the row's key overwrites it in order. -/
def overwriteAll (u : Nat) (f : String) (S : List SyncEvent) (r : EventRow) : EventRow :=
  S.foldl (fun x e =>
    if x.event_id == e.id && x.user_id == u then updateRow x f e else x) r

/-! Concrete sample data used by the witness theorems. -/

/-- A concrete well-formed snapshot event. -/
def sampleEvent : SyncEvent :=
  { id := "A", title := "Team Meeting", startDate := "2025-08-10T23:00:00.000Z"
    endDate := "2025-08-11T00:00:00.000Z", isAllDay := false, notes := none
    location := none, calendarId := "CAL1", calendarName := "Work"
    fetchedAt := "2025-08-10T18:55:41.749Z" }

/-- The same event id as `sampleEvent` with a different title. -/
def sampleEventDup : SyncEvent := { sampleEvent with title := "Team Meeting v2" }

/-- A snapshot event missing its title. -/
def badEvent : SyncEvent := { sampleEvent with id := "BAD", title := "" }

/-- A concrete user row. -/
def sampleUser : UserRow :=
  { id := 1, firebase_uid := "U1", email := "one@example.com", display_name := none
    photo_url := none, email_verified := true }

/-- A second concrete user row. -/
def sampleUser2 : UserRow := { sampleUser with id := 2, firebase_uid := "U2" }

/-- A stored event row of `sampleUser`. -/
def rowA : EventRow :=
  { rid := 1, event_id := "A", user_id := 1, title := "Old Title"
    start_date := "2025-08-01 10:00:00", end_date := "2025-08-01 11:00:00"
    is_all_day := false, notes := none, location := none, calendar_id := "CAL1"
    calendar_name := "Work", firebase_uid := "U1"
    fetched_at := "2025-08-01 09:00:00" }

/-- A stored event row of `sampleUser2`. -/
def rowB : EventRow := { rowA with rid := 2, event_id := "B", user_id := 2, firebase_uid := "U2" }

/-- A contact row attached to `rowA`. -/
def contactRowA : ContactRow :=
  { rid := 1, event_id := 1, contact_id := "C1", contact_name := "Alice"
    contact_emails := ["alice@example.com"], contact_phone_numbers := [] }

/-- A contact row attached to `rowB`. -/
def contactRowB : ContactRow := { contactRowA with rid := 2, event_id := 2 }

/-- A store holding one user and no events. -/
def db0 : DB :=
  { users := [sampleUser], events := [], contacts := [], nextUserId := 2
    nextEventRid := 1, nextContactRid := 1 }

/-- A store holding two users, one event each, one contact each. -/
def dbW : DB :=
  { users := [sampleUser, sampleUser2], events := [rowA, rowB]
    contacts := [contactRowA, contactRowB], nextUserId := 3, nextEventRid := 3
    nextContactRid := 3 }

/-- A concrete external-identity profile. -/
def profile9 : FirebaseProfile :=
  { uid := "U9", email := "nine@example.com", displayName := some "Nine"
    photoURL := none, emailVerified := true }

/-- A row another concurrent caller inserts for the same subject as `profile9`. -/
def otherUser9 : UserRow :=
  { id := 0, firebase_uid := "U9", email := "other@example.com", display_name := none
    photo_url := none, email_verified := false }

/-- A concrete single-event create request. -/
def sampleNewEvent : NewEventIn :=
  { id := "N1", title := "Dinner", startDate := "2025-08-12T19:00:00.000Z"
    endDate := "2025-08-12T21:00:00.000Z", isAllDay := false, notes := none
    location := none, calendarId := "CAL1", calendarName := "Work"
    createdAt := some "2025-08-12T12:00:00.000Z" }

/-- A concrete attached contact for a create request. -/
def contactIn1 : ContactIn :=
  { id := "C1", name := "Alice", emails := ["alice@example.com"], phoneNumbers := [] }

/-! Helper lemmas. -/

@[simp] lemma updateRow_rid (r : EventRow) (f : String) (e : SyncEvent) :
    (updateRow r f e).rid = r.rid := rfl

@[simp] lemma updateRow_event_id (r : EventRow) (f : String) (e : SyncEvent) :
    (updateRow r f e).event_id = r.event_id := rfl

@[simp] lemma updateRow_user_id (r : EventRow) (f : String) (e : SyncEvent) :
    (updateRow r f e).user_id = r.user_id := rfl

lemma updateRow_updateRow (r : EventRow) (f : String) (e e' : SyncEvent) :
    updateRow (updateRow r f e') f e = updateRow r f e := rfl

lemma updateRow_newRow (rid u : Nat) (f : String) (e : SyncEvent) :
    updateRow (newRow rid u f e) f e = newRow rid u f e := rfl

lemma updateRow_congr {r s : EventRow} (f : String) (e : SyncEvent)
    (h1 : r.rid = s.rid) (h2 : r.event_id = s.event_id) (h3 : r.user_id = s.user_id) :
    updateRow r f e = updateRow s f e := by
  cases r; cases s; simp_all [updateRow]

lemma filter_map_inv {α : Type} (l : List α) (g : α → α) (p : α → Bool)
    (h1 : ∀ a, p (g a) = p a) (h2 : ∀ a, p a = true → g a = a) :
    (l.map g).filter p = l.filter p := by
  induction l with
  | nil => rfl
  | cons a t ih =>
    simp only [List.map_cons, List.filter_cons, h1 a]
    cases hpa : p a
    · simpa using ih
    · rw [h2 a hpa]; simpa using ih

lemma any_map_inv {α : Type} (l : List α) (g : α → α) (p : α → Bool)
    (h1 : ∀ a, p (g a) = p a) : (l.map g).any p = l.any p := by
  induction l with
  | nil => rfl
  | cons a t ih => simp [h1 a, ih]

lemma any_filter_inv {α : Type} (l : List α) (keep p : α → Bool)
    (h : ∀ a, p a = true → keep a = true) : (l.filter keep).any p = l.any p := by
  induction l with
  | nil => rfl
  | cons a t ih =>
    cases hk : keep a
    · have hp : p a = false := by
        cases hpa : p a
        · rfl
        · rw [h a hpa] at hk; cases hk
      simp [List.filter_cons, hk, hp, ih]
    · simp [List.filter_cons, hk, ih]

lemma filter_filter_inv {α : Type} (l : List α) (keep p : α → Bool)
    (h : ∀ a, p a = true → keep a = true) : (l.filter keep).filter p = l.filter p := by
  induction l with
  | nil => rfl
  | cons a t ih =>
    cases hk : keep a
    · have hp : p a = false := by
        cases hpa : p a
        · rfl
        · rw [h a hpa] at hk; cases hk
      simp [List.filter_cons, hk, hp, ih]
    · simp [List.filter_cons, hk, ih]

lemma hasEvent_iff (db : DB) (u : Nat) (id : String) :
    hasEvent db u id = true ↔ ∃ r ∈ db.events, r.event_id = id ∧ r.user_id = u := by
  simp [hasEvent]

lemma upsertEvent_pos (db : DB) (u : Nat) (f : String) (e : SyncEvent)
    (h : hasEvent db u e.id = true) :
    upsertEvent db u f e = { db with events := db.events.map (fun r =>
      if r.event_id == e.id && r.user_id == u then updateRow r f e else r) } := by
  unfold upsertEvent
  exact if_pos h

lemma upsertEvent_neg (db : DB) (u : Nat) (f : String) (e : SyncEvent)
    (h : ¬ hasEvent db u e.id = true) :
    upsertEvent db u f e =
      { db with
        events := db.events ++ [newRow db.nextEventRid u f e]
        nextEventRid := db.nextEventRid + 1 } := by
  unfold upsertEvent
  exact if_neg h

lemma hasEvent_upsertEvent (db : DB) (u : Nat) (f : String) (e : SyncEvent)
    (v : Nat) (id : String) :
    hasEvent (upsertEvent db u f e) v id = true ↔
      (hasEvent db v id = true ∨ (v = u ∧ id = e.id)) := by
  by_cases h : hasEvent db u e.id = true
  · rw [upsertEvent_pos db u f e h]
    rw [hasEvent_iff, hasEvent_iff]
    constructor
    · rintro ⟨r, hr, hid, hv⟩
      rcases List.mem_map.mp hr with ⟨r0, hr0, rfl⟩
      left
      by_cases hc : (r0.event_id == e.id && r0.user_id == u) = true
      · refine ⟨r0, hr0, ?_, ?_⟩
        · rw [if_pos hc] at hid; simpa using hid
        · rw [if_pos hc] at hv; simpa using hv
      · rw [if_neg hc] at hid hv
        exact ⟨r0, hr0, hid, hv⟩
    · rintro (⟨r, hr, hid, hv⟩ | ⟨hv, hid⟩)
      · refine ⟨if r.event_id == e.id && r.user_id == u then updateRow r f e else r,
          List.mem_map.mpr ⟨r, hr, rfl⟩, ?_, ?_⟩
        · by_cases hc : (r.event_id == e.id && r.user_id == u) = true
          · rw [if_pos hc]; simpa using hid
          · rw [if_neg hc]; exact hid
        · by_cases hc : (r.event_id == e.id && r.user_id == u) = true
          · rw [if_pos hc]; simpa using hv
          · rw [if_neg hc]; exact hv
      · rcases (hasEvent_iff db u e.id).mp h with ⟨r0, hr0, he0, hu0⟩
        have hc : (r0.event_id == e.id && r0.user_id == u) = true := by
          simp [he0, hu0]
        refine ⟨if r0.event_id == e.id && r0.user_id == u then updateRow r0 f e else r0,
          List.mem_map.mpr ⟨r0, hr0, rfl⟩, ?_, ?_⟩
        · rw [if_pos hc]; simp [he0, hid]
        · rw [if_pos hc]; simp [hu0, hv]
  · rw [upsertEvent_neg db u f e h]
    rw [hasEvent_iff, hasEvent_iff]
    constructor
    · rintro ⟨r, hr, hid, hv⟩
      rcases List.mem_append.mp hr with hr1 | hr1
      · exact Or.inl ⟨r, hr1, hid, hv⟩
      · right
        have : r = newRow db.nextEventRid u f e := by simpa using hr1
        subst this
        exact ⟨hv.symm ▸ rfl, hid.symm ▸ rfl⟩
    · rintro (⟨r, hr, hid, hv⟩ | ⟨hv, hid⟩)
      · exact ⟨r, List.mem_append.mpr (Or.inl hr), hid, hv⟩
      · refine ⟨newRow db.nextEventRid u f e,
          List.mem_append.mpr (Or.inr (by simp)), ?_, ?_⟩
        · simpa [newRow] using hid.symm
        · simpa [newRow] using hv.symm

lemma upsertFold_cons (db : DB) (u : Nat) (f : String) (e : SyncEvent)
    (S : List SyncEvent) :
    upsertFold db u f (e :: S) = upsertFold (upsertEvent db u f e) u f S := rfl

lemma hasEvent_upsertFold (db : DB) (u : Nat) (f : String) (S : List SyncEvent)
    (v : Nat) (id : String) :
    hasEvent (upsertFold db u f S) v id = true ↔
      hasEvent db v id = true ∨ (v = u ∧ id ∈ S.map SyncEvent.id) := by
  induction S generalizing db with
  | nil => simp [upsertFold]
  | cons e S ih =>
    rw [upsertFold_cons, ih, hasEvent_upsertEvent]
    simp only [List.map_cons, List.mem_cons]
    tauto

lemma pruneStep_eq (db : DB) (u : Nat) (ids : List String) :
    pruneStep db u ids =
      deleteEventsWhere db (fun r => r.user_id == u && !(ids.contains r.event_id)) := by
  cases ids with
  | nil =>
    unfold pruneStep
    rw [if_neg (by simp)]
    congr 1
    funext r
    simp
  | cons a t =>
    unfold pruneStep
    rw [if_pos (by simp)]

lemma mem_events_deleteEventsWhere (db : DB) (p : EventRow → Bool) (r : EventRow) :
    r ∈ (deleteEventsWhere db p).events ↔ r ∈ db.events ∧ p r = false := by
  simp [deleteEventsWhere, List.mem_filter]

lemma hasEvent_syncCommit_owner (db : DB) (S : List SyncEvent) (u : Nat) (f : String)
    (id : String) :
    hasEvent (syncEventsCommit db S u f) u id = true ↔ id ∈ S.map SyncEvent.id := by
  unfold syncEventsCommit
  rw [pruneStep_eq]
  constructor
  · intro h
    rcases (hasEvent_iff _ _ _).mp h with ⟨r, hr, hid, hu⟩
    rw [mem_events_deleteEventsWhere] at hr
    rcases hr with ⟨_, hr2⟩
    simp [hu] at hr2
    rcases hr2 with ⟨a, ha, haid⟩
    exact List.mem_map.mpr ⟨a, ha, by rw [haid, hid]⟩
  · intro h
    have hfold : hasEvent (upsertFold db u f S) u id = true :=
      (hasEvent_upsertFold db u f S u id).mpr (Or.inr ⟨rfl, h⟩)
    rcases (hasEvent_iff _ _ _).mp hfold with ⟨r, hr, hid, hu⟩
    refine (hasEvent_iff _ _ _).mpr ⟨r, ?_, hid, hu⟩
    rw [mem_events_deleteEventsWhere]
    refine ⟨hr, ?_⟩
    simp [hu, hid, h]

/-- C1: after a committed `CalendarEvent.syncEvents(S, userId, firebaseUid)` call,
the set of external event identifiers stored for that owner equals exactly the set
of identifiers occurring in the snapshot `S` — every snapshot event is upserted and
every stored event of the owner whose identifier is absent from `S` is deleted; in
particular an empty snapshot leaves the owner with no stored events. -/
theorem syncEvents_exact_correspondence (db : DB) (S : List SyncEvent) (u : Nat)
    (f : String) (id : String) :
    hasEvent ((syncEvents db S u f none).1) u id = true ↔ id ∈ S.map SyncEvent.id :=
  hasEvent_syncCommit_owner db S u f id

/-- C2: if any statement of the `CalendarEvent.syncEvents` transaction fails — any
upsert (index below the snapshot length) or the prune delete (index equal to it) —
the whole transaction is rolled back: the store is returned unchanged, so no event
of the failing call is visible, and the error propagates. -/
theorem syncEvents_atomic_rollback (db : DB) (S : List SyncEvent) (u : Nat)
    (f : String) (k : Nat) (hk : k ≤ S.length) :
    (syncEvents db S u f (some k)).1 = db ∧
      (syncEvents db S u f (some k)).2 =
        Except.error "Error syncing calendar events: statement failed" := by
  simp [syncEvents, hk]

/-- Witness for C2 at a concrete input: a failure at the very first upsert of a
one-event snapshot leaves the store untouched. -/
theorem syncEvents_atomic_rollback_witness :
    (0 ≤ [sampleEvent].length) ∧
      ((syncEvents db0 [sampleEvent] 1 "U1" (some 0)).1 = db0 ∧
        (syncEvents db0 [sampleEvent] 1 "U1" (some 0)).2 =
          Except.error "Error syncing calendar events: statement failed") :=
  ⟨Nat.zero_le _, syncEvents_atomic_rollback db0 [sampleEvent] 1 "U1" 0 (Nat.zero_le _)⟩

/-- C3: when some element of the snapshot fails the required-field validation,
`CalendarService.syncCalendarEvents` rejects the whole call with the validation
error and returns the store unchanged — no element, in particular none before the
offending one, is persisted, and this holds for every behaviour of the storage
layer (every failure injection). -/
theorem syncCalendarEvents_validation_fail_fast (db : DB) (events : List SyncEvent)
    (uid : String) (user : UserRow) (failAt : Option Nat)
    (hu : findByFirebaseUid db uid = some user)
    (hbad : ∃ e ∈ events, validEvent e = false) :
    syncCalendarEvents db { events := some events, userId := some uid } failAt =
      (db, Except.error "Invalid event structure: missing required fields") := by
  have hall : events.all validEvent = false := by
    rcases hbad with ⟨e, he, hv⟩
    cases hA : events.all validEvent
    · rfl
    · have := List.all_eq_true.mp hA e he
      rw [hv] at this; cases this
  simp [syncCalendarEvents, hu, hall]

lemma map_eq_self_of {α : Type} (l : List α) (g : α → α) (h : ∀ a ∈ l, g a = a) :
    l.map g = l := by
  induction l with
  | nil => rfl
  | cons a t ih => simp [h a (by simp), ih (fun b hb => h b (by simp [hb]))]

lemma upsertFold_append (db : DB) (u : Nat) (f : String) (S : List SyncEvent)
    (e : SyncEvent) :
    upsertFold db u f (S ++ [e]) = upsertEvent (upsertFold db u f S) u f e := by
  simp [upsertFold, List.foldl_append]

lemma lastOcc_append (S : List SyncEvent) (e : SyncEvent) (id : String) :
    lastOcc (S ++ [e]) id = if e.id == id then some e else lastOcc S id := by
  unfold lastOcc
  rw [List.reverse_append]
  simp only [List.reverse_cons, List.reverse_nil, List.nil_append, List.singleton_append]
  cases h : e.id == id
  · simp [List.find?, h]
  · simp [List.find?, h]

lemma overwriteAll_cons (u : Nat) (f : String) (e : SyncEvent) (S : List SyncEvent)
    (r : EventRow) :
    overwriteAll u f (e :: S) r =
      overwriteAll u f S
        (if r.event_id == e.id && r.user_id == u then updateRow r f e else r) := rfl

lemma overwriteAll_append (u : Nat) (f : String) (S : List SyncEvent) (e : SyncEvent)
    (r : EventRow) :
    overwriteAll u f (S ++ [e]) r =
      (if (overwriteAll u f S r).event_id == e.id && (overwriteAll u f S r).user_id == u
        then updateRow (overwriteAll u f S r) f e else overwriteAll u f S r) := by
  simp [overwriteAll, List.foldl_append]

lemma overwriteAll_keys (u : Nat) (f : String) (S : List SyncEvent) (r : EventRow) :
    (overwriteAll u f S r).rid = r.rid ∧
      (overwriteAll u f S r).event_id = r.event_id ∧
      (overwriteAll u f S r).user_id = r.user_id := by
  induction S generalizing r with
  | nil => exact ⟨rfl, rfl, rfl⟩
  | cons e S ih =>
    rw [overwriteAll_cons]
    rcases ih (if r.event_id == e.id && r.user_id == u then updateRow r f e else r)
      with ⟨h1, h2, h3⟩
    rw [h1, h2, h3]
    split <;> simp

lemma hasEvent_map_update (db : DB) (u : Nat) (f : String) (e : SyncEvent) (v : Nat)
    (id : String) :
    hasEvent { db with events := db.events.map (fun r =>
        if r.event_id == e.id && r.user_id == u then updateRow r f e else r) } v id
      = hasEvent db v id := by
  unfold hasEvent
  apply any_map_inv
  intro a
  by_cases hc : (a.event_id == e.id && a.user_id == u) = true
  · rw [if_pos hc]; simp
  · rw [if_neg hc]

lemma upsertFold_last_write (db : DB) (u : Nat) (f : String) (S : List SyncEvent) :
    ∀ r ∈ (upsertFold db u f S).events, r.user_id = u →
      ∀ e, lastOcc S r.event_id = some e → updateRow r f e = r := by
  induction S using List.reverseRecOn with
  | nil =>
    intro r _ _ e he
    simp [lastOcc] at he
  | append_singleton S e0 ih =>
    rw [upsertFold_append]
    intro r hr hu e he
    by_cases hhas : hasEvent (upsertFold db u f S) u e0.id = true
    · rw [upsertEvent_pos _ _ _ _ hhas] at hr
      rcases List.mem_map.mp hr with ⟨r0, hr0, rfl⟩
      by_cases hc : (r0.event_id == e0.id && r0.user_id == u) = true
      · rw [if_pos hc] at hu he ⊢
        have hide : r0.event_id = e0.id := by
          have := hc
          simp at this
          exact this.1
        rw [lastOcc_append, updateRow_event_id, hide] at he
        simp at he
        cases he
        exact updateRow_updateRow r0 f e0 e0
      · rw [if_neg hc] at hu he ⊢
        simp at hc
        have hne : r0.event_id ≠ e0.id := fun hh => hc hh hu
        rw [lastOcc_append, if_neg (by simp [Ne.symm hne])] at he
        exact ih r0 hr0 hu e he
    · rw [upsertEvent_neg _ _ _ _ hhas] at hr
      rcases List.mem_append.mp hr with hr1 | hr1
      · have hno : ¬(r.event_id = e0.id ∧ r.user_id = u) := by
          rintro ⟨h1, h2⟩
          exact hhas ((hasEvent_iff _ _ _).mpr ⟨r, hr1, h1, h2⟩)
        have hne : r.event_id ≠ e0.id := fun hh => hno ⟨hh, hu⟩
        rw [lastOcc_append, if_neg (by simp [Ne.symm hne])] at he
        exact ih r hr1 hu e he
      · have hr2 := List.mem_singleton.mp hr1
        subst hr2
        rw [lastOcc_append] at he
        rw [show (newRow (upsertFold db u f S).nextEventRid u f e0).event_id = e0.id
          from rfl] at he
        simp at he
        cases he
        exact updateRow_newRow _ _ _ _

lemma upsertFold_all_present (db : DB) (u : Nat) (f : String) (S : List SyncEvent)
    (h : ∀ e ∈ S, hasEvent db u e.id = true) :
    upsertFold db u f S = { db with events := db.events.map (overwriteAll u f S) } := by
  induction S generalizing db with
  | nil =>
    simp only [upsertFold, List.foldl_nil]
    have hov : (overwriteAll u f []) = fun r => r := rfl
    rw [hov, List.map_id']
  | cons e S ih =>
    rw [upsertFold_cons]
    rw [upsertEvent_pos db u f e (h e (by simp))]
    rw [ih _ (fun e' he' => by
      rw [hasEvent_map_update]
      exact h e' (by simp [he']))]
    simp only [List.map_map]
    rfl

lemma overwriteAll_eq_self (u : Nat) (f : String) (S : List SyncEvent) (r : EventRow)
    (h : r.user_id = u → ∀ e, lastOcc S r.event_id = some e → updateRow r f e = r) :
    overwriteAll u f S r = r := by
  induction S using List.reverseRecOn with
  | nil => rfl
  | append_singleton S e0 ih =>
    rw [overwriteAll_append]
    rcases overwriteAll_keys u f S r with ⟨hk1, hk2, hk3⟩
    by_cases hu : r.user_id = u
    · by_cases hid : r.event_id = e0.id
      · have hcond : ((overwriteAll u f S r).event_id == e0.id &&
            (overwriteAll u f S r).user_id == u) = true := by
          simp [hk2, hk3, hid, hu]
        rw [if_pos hcond]
        rw [updateRow_congr f e0 hk1 hk2 hk3]
        apply h hu e0
        rw [lastOcc_append, if_pos (by simp [hid])]
      · have hcond : ((overwriteAll u f S r).event_id == e0.id &&
            (overwriteAll u f S r).user_id == u) = false := by
          simp [hk2, hk3]
          intro hh
          exact absurd hh hid
        rw [if_neg (by simp [hcond])]
        apply ih
        intro hu' e he
        apply h hu' e
        rw [lastOcc_append, if_neg (by simp; exact fun hh => hid hh.symm)]
        exact he
    · have hcond : ((overwriteAll u f S r).event_id == e0.id &&
          (overwriteAll u f S r).user_id == u) = false := by
        simp [hk2, hk3, hu]
      rw [if_neg (by simp [hcond])]
      apply ih
      intro hu' _ _
      exact absurd hu' hu

lemma mem_of_mem_pruneStep (db : DB) (u : Nat) (ids : List String) (r : EventRow)
    (h : r ∈ (pruneStep db u ids).events) : r ∈ db.events := by
  rw [pruneStep_eq] at h
  exact ((mem_events_deleteEventsWhere _ _ _).mp h).1

lemma pruneStep_kept (db : DB) (u : Nat) (ids : List String) (r : EventRow)
    (h : r ∈ (pruneStep db u ids).events) (hu : r.user_id = u) :
    ids.contains r.event_id = true := by
  rw [pruneStep_eq] at h
  rcases (mem_events_deleteEventsWhere _ _ _).mp h with ⟨_, h2⟩
  simp [hu] at h2
  simpa using h2

lemma deleteEventsWhere_of_none (db : DB) (p : EventRow → Bool)
    (h : ∀ r ∈ db.events, p r = false) : deleteEventsWhere db p = db := by
  have h1 : db.events.filter p = [] := by
    rw [List.filter_eq_nil_iff]
    intro a ha
    simp [h a ha]
  have h2 : db.events.filter (fun r => !(p r)) = db.events := by
    rw [List.filter_eq_self]
    intro a ha
    simp [h a ha]
  unfold deleteEventsWhere
  rw [h1, h2]
  simp

lemma pruneStep_id (db : DB) (u : Nat) (ids : List String)
    (h : ∀ r ∈ db.events, r.user_id = u → ids.contains r.event_id = true) :
    pruneStep db u ids = db := by
  rw [pruneStep_eq]
  apply deleteEventsWhere_of_none
  intro r hr
  by_cases hu : r.user_id = u
  · simp [hu]
    simpa using h r hr hu
  · simp [hu]

lemma syncCommit_idem (db : DB) (S : List SyncEvent) (u : Nat) (f : String) :
    syncEventsCommit (syncEventsCommit db S u f) S u f = syncEventsCommit db S u f := by
  have hpresent : ∀ e ∈ S, hasEvent (syncEventsCommit db S u f) u e.id = true := by
    intro e he
    rw [hasEvent_syncCommit_owner]
    exact List.mem_map.mpr ⟨e, he, rfl⟩
  have hid : ∀ r ∈ (syncEventsCommit db S u f).events, overwriteAll u f S r = r := by
    intro r hr
    apply overwriteAll_eq_self
    intro hu e he
    have hr1 : r ∈ (upsertFold db u f S).events :=
      mem_of_mem_pruneStep (upsertFold db u f S) u (S.map SyncEvent.id) r hr
    exact upsertFold_last_write db u f S r hr1 hu e he
  have hfold : upsertFold (syncEventsCommit db S u f) u f S = syncEventsCommit db S u f := by
    rw [upsertFold_all_present _ u f S hpresent]
    rw [map_eq_self_of _ _ hid]
  have hprune : pruneStep (syncEventsCommit db S u f) u (S.map SyncEvent.id)
      = syncEventsCommit db S u f := by
    apply pruneStep_id
    intro r hr hu
    exact pruneStep_kept (upsertFold db u f S) u (S.map SyncEvent.id) r hr hu
  show pruneStep (upsertFold (syncEventsCommit db S u f) u f S) u (S.map SyncEvent.id)
    = syncEventsCommit db S u f
  rw [hfold, hprune]

/-- C4: reconciling the same snapshot twice in a row is idempotent — the second
committed `CalendarEvent.syncEvents` call leaves the store exactly as the first one
did (same rows, so zero additional rows are created) and returns the same success
result with the same upserted-events count. -/
theorem syncEvents_idempotent (db : DB) (S : List SyncEvent) (u : Nat) (f : String)
    (_hS : S ≠ []) :
    (syncEvents ((syncEvents db S u f none).1) S u f none).1
        = (syncEvents db S u f none).1 ∧
      (syncEvents ((syncEvents db S u f none).1) S u f none).2
        = (syncEvents db S u f none).2 ∧
      ((syncEvents ((syncEvents db S u f none).1) S u f none).1).events.length
        = ((syncEvents db S u f none).1).events.length := by
  refine ⟨syncCommit_idem db S u f, rfl, ?_⟩
  have h := syncCommit_idem db S u f
  show (syncEventsCommit (syncEventsCommit db S u f) S u f).events.length
    = (syncEventsCommit db S u f).events.length
  rw [h]

/-- Witness for C4 at a concrete input: syncing a one-event snapshot twice. -/
theorem syncEvents_idempotent_witness :
    ([sampleEvent] ≠ ([] : List SyncEvent)) ∧
      ((syncEvents ((syncEvents db0 [sampleEvent] 1 "U1" none).1) [sampleEvent] 1 "U1"
            none).1 = (syncEvents db0 [sampleEvent] 1 "U1" none).1 ∧
        (syncEvents ((syncEvents db0 [sampleEvent] 1 "U1" none).1) [sampleEvent] 1 "U1"
            none).2 = (syncEvents db0 [sampleEvent] 1 "U1" none).2 ∧
        ((syncEvents ((syncEvents db0 [sampleEvent] 1 "U1" none).1) [sampleEvent] 1 "U1"
            none).1).events.length
          = ((syncEvents db0 [sampleEvent] 1 "U1" none).1).events.length) :=
  ⟨by decide, syncEvents_idempotent db0 [sampleEvent] 1 "U1" (by decide)⟩

/-- Witness for C3 at a concrete input: a two-event snapshot whose second event has
an empty title is rejected whole; the first event is not persisted. -/
theorem syncCalendarEvents_validation_fail_fast_witness :
    (findByFirebaseUid db0 "U1" = some sampleUser ∧
      ∃ e ∈ [sampleEvent, badEvent], validEvent e = false) ∧
      syncCalendarEvents db0 { events := some [sampleEvent, badEvent], userId := some "U1" }
        none = (db0, Except.error "Invalid event structure: missing required fields") :=
  ⟨⟨by decide, ⟨badEvent, by decide, by decide⟩⟩,
    syncCalendarEvents_validation_fail_fast db0 [sampleEvent, badEvent] "U1" sampleUser
      none (by decide) ⟨badEvent, by decide, by decide⟩⟩

lemma noOrphans_deleteEventsWhere (db : DB) (p : EventRow → Bool) (h : noOrphans db) :
    noOrphans (deleteEventsWhere db p) := by
  intro c hc
  rcases List.mem_filter.mp hc with ⟨hc1, hc2⟩
  rcases h c hc1 with ⟨r, hr, hrid⟩
  refine ⟨r, ?_, hrid⟩
  rw [mem_events_deleteEventsWhere]
  refine ⟨hr, ?_⟩
  cases hp : p r
  · rfl
  · exfalso
    have hmem : r ∈ db.events.filter p := List.mem_filter.mpr ⟨hr, hp⟩
    have hany : (db.events.filter p).any (fun x => x.rid == c.event_id) = true :=
      List.any_eq_true.mpr ⟨r, hmem, by simp [hrid]⟩
    rw [hany] at hc2
    cases hc2

lemma noOrphans_upsertEvent (db : DB) (u : Nat) (f : String) (e : SyncEvent)
    (h : noOrphans db) : noOrphans (upsertEvent db u f e) := by
  by_cases hhas : hasEvent db u e.id = true
  · rw [upsertEvent_pos db u f e hhas]
    intro c hc
    rcases h c hc with ⟨r, hr, hrid⟩
    refine ⟨if r.event_id == e.id && r.user_id == u then updateRow r f e else r,
      List.mem_map.mpr ⟨r, hr, rfl⟩, ?_⟩
    split <;> simp [hrid]
  · rw [upsertEvent_neg db u f e hhas]
    intro c hc
    rcases h c hc with ⟨r, hr, hrid⟩
    exact ⟨r, List.mem_append.mpr (Or.inl hr), hrid⟩

lemma noOrphans_upsertFold (db : DB) (u : Nat) (f : String) (S : List SyncEvent)
    (h : noOrphans db) : noOrphans (upsertFold db u f S) := by
  induction S generalizing db with
  | nil => exact h
  | cons e S ih =>
    rw [upsertFold_cons]
    exact ih _ (noOrphans_upsertEvent db u f e h)

/-- C5: deleting an event — directly through `CalendarEvent.deleteByEventId` or
implicitly through the prune step of a committed `CalendarEvent.syncEvents` —
removes every `EventContact` row attached to it: the no-orphan-contacts invariant
is preserved by both operations, so afterwards no contact row references a missing
event. -/
theorem delete_cascade_no_orphans (db : DB) (eid : String) (u : Nat)
    (S : List SyncEvent) (f : String) (h : noOrphans db) :
    noOrphans (deleteByEventId db eid u) ∧ noOrphans ((syncEvents db S u f none).1) := by
  constructor
  · exact noOrphans_deleteEventsWhere db _ h
  · show noOrphans (syncEventsCommit db S u f)
    unfold syncEventsCommit
    rw [pruneStep_eq]
    exact noOrphans_deleteEventsWhere _ _ (noOrphans_upsertFold db u f S h)

/-- Witness for C5 at a concrete input: a store with two events and one attached
contact each; a direct delete and a pruning sync both leave no orphan contact. -/
theorem delete_cascade_no_orphans_witness :
    noOrphans dbW ∧
      (noOrphans (deleteByEventId dbW "A" 1) ∧
        noOrphans ((syncEvents dbW [sampleEvent] 1 "U1" none).1)) :=
  ⟨by unfold noOrphans; decide,
    delete_cascade_no_orphans dbW "A" 1 [sampleEvent] "U1" (by unfold noOrphans; decide)⟩

lemma step_keys (u : Nat) (f : String) (e : SyncEvent) (a : EventRow) :
    ((if a.event_id == e.id && a.user_id == u then updateRow a f e else a).event_id
        = a.event_id) ∧
      ((if a.event_id == e.id && a.user_id == u then updateRow a f e else a).user_id
        = a.user_id) := by
  split <;> simp

lemma natKeyUnique_upsertEvent (db : DB) (u : Nat) (f : String) (e : SyncEvent)
    (h : natKeyUnique db) : natKeyUnique (upsertEvent db u f e) := by
  by_cases hhas : hasEvent db u e.id = true
  · rw [upsertEvent_pos db u f e hhas]
    unfold natKeyUnique at h ⊢
    rw [List.pairwise_map]
    refine List.Pairwise.imp ?_ h
    intro a b hab hk
    rcases step_keys u f e a with ⟨ha1, ha2⟩
    rcases step_keys u f e b with ⟨hb1, hb2⟩
    rw [ha1, hb1, ha2, hb2] at hk
    exact hab hk
  · rw [upsertEvent_neg db u f e hhas]
    unfold natKeyUnique at h ⊢
    rw [List.pairwise_append]
    refine ⟨h, by simp, ?_⟩
    intro a ha b hb
    have hb1 := List.mem_singleton.mp hb
    subst hb1
    rintro ⟨h1, h2⟩
    apply hhas
    exact (hasEvent_iff _ _ _).mpr ⟨a, ha, h1, h2⟩

lemma natKeyUnique_upsertFold (db : DB) (u : Nat) (f : String) (S : List SyncEvent)
    (h : natKeyUnique db) : natKeyUnique (upsertFold db u f S) := by
  induction S generalizing db with
  | nil => exact h
  | cons e S ih =>
    rw [upsertFold_cons]
    exact ih _ (natKeyUnique_upsertEvent db u f e h)

lemma natKeyUnique_deleteEventsWhere (db : DB) (p : EventRow → Bool)
    (h : natKeyUnique db) : natKeyUnique (deleteEventsWhere db p) :=
  List.Pairwise.sublist (List.filter_sublist _) h

lemma natKeyUnique_syncCommit (db : DB) (S : List SyncEvent) (u : Nat) (f : String)
    (h : natKeyUnique db) : natKeyUnique (syncEventsCommit db S u f) := by
  unfold syncEventsCommit
  rw [pruneStep_eq]
  exact natKeyUnique_deleteEventsWhere _ _ (natKeyUnique_upsertFold db u f S h)

lemma filter_key_length_one (l : List EventRow) (id : String) (u : Nat)
    (hnd : l.Pairwise (fun a b => ¬(a.event_id = b.event_id ∧ a.user_id = b.user_id)))
    (hex : ∃ r ∈ l, r.event_id = id ∧ r.user_id = u) :
    (l.filter (fun r => r.event_id == id && r.user_id == u)).length = 1 := by
  induction l with
  | nil =>
    rcases hex with ⟨r, hr, _⟩
    cases hr
  | cons a t ih =>
    rw [List.pairwise_cons] at hnd
    rcases hnd with ⟨ha, ht⟩
    by_cases hm : (a.event_id == id && a.user_id == u) = true
    · rw [List.filter_cons, if_pos hm, List.length_cons]
      have ht0 : t.filter (fun r => r.event_id == id && r.user_id == u) = [] := by
        rw [List.filter_eq_nil_iff]
        intro b hb hbm
        simp at hm hbm
        exact ha b hb ⟨hm.1.trans hbm.1.symm, hm.2.trans hbm.2.symm⟩
      rw [ht0]
      rfl
    · rw [List.filter_cons, if_neg hm]
      apply ih ht
      rcases hex with ⟨r, hr, h1, h2⟩
      rcases List.mem_cons.mp hr with rfl | hr
      · exact absurd (by simp [h1, h2]) hm
      · exact ⟨r, hr, h1, h2⟩

/-- C6: when the snapshot contains two or more events carrying the same external
identifier for the same owner, a committed `CalendarEvent.syncEvents` stores
exactly one final row for that identifier and that row's field values are those
written from the last occurrence in snapshot processing order. -/
theorem syncEvents_last_write_wins (db : DB) (S : List SyncEvent) (u : Nat)
    (f : String) (id : String) (e : SyncEvent)
    (hnd : natKeyUnique db)
    (hdup : 2 ≤ (S.filter (fun ev => ev.id == id)).length)
    (hlast : lastOcc S id = some e) :
    ((((syncEvents db S u f none).1).events.filter
        (fun r => r.event_id == id && r.user_id == u)).length = 1) ∧
      ∀ r ∈ ((syncEvents db S u f none).1).events, r.event_id = id → r.user_id = u →
        updateRow r f e = r := by
  have hmem : id ∈ S.map SyncEvent.id := by
    cases hf : S.filter (fun ev => ev.id == id) with
    | nil => rw [hf] at hdup; simp at hdup
    | cons b tb =>
      have hb : b ∈ S.filter (fun ev => ev.id == id) := by
        rw [hf]; exact List.mem_cons_self b tb
      rcases List.mem_filter.mp hb with ⟨hbS, hbid⟩
      exact List.mem_map.mpr ⟨b, hbS, by simpa using hbid⟩
  constructor
  · apply filter_key_length_one
    · exact natKeyUnique_syncCommit db S u f hnd
    · have hhe := (hasEvent_syncCommit_owner db S u f id).mpr hmem
      rcases (hasEvent_iff _ _ _).mp hhe with ⟨r, hr, h1, h2⟩
      exact ⟨r, hr, h1, h2⟩
  · intro r hr h1 h2
    have hr1 : r ∈ (upsertFold db u f S).events :=
      mem_of_mem_pruneStep (upsertFold db u f S) u _ r hr
    apply upsertFold_last_write db u f S r hr1 h2 e
    rw [h1]
    exact hlast

/-- Witness for C6 at a concrete input: a snapshot with two events sharing id "A";
exactly one row remains and it carries the second occurrence's values. -/
theorem syncEvents_last_write_wins_witness :
    (natKeyUnique db0 ∧
        2 ≤ ([sampleEvent, sampleEventDup].filter (fun ev => ev.id == "A")).length ∧
        lastOcc [sampleEvent, sampleEventDup] "A" = some sampleEventDup) ∧
      (((((syncEvents db0 [sampleEvent, sampleEventDup] 1 "U1" none).1).events.filter
          (fun r => r.event_id == "A" && r.user_id == 1)).length = 1) ∧
        ∀ r ∈ ((syncEvents db0 [sampleEvent, sampleEventDup] 1 "U1" none).1).events,
          r.event_id = "A" → r.user_id = 1 → updateRow r "U1" sampleEventDup = r) :=
  ⟨⟨by unfold natKeyUnique; decide, by decide, by decide⟩,
    syncEvents_last_write_wins db0 [sampleEvent, sampleEventDup] 1 "U1" "A"
      sampleEventDup (by unfold natKeyUnique; decide) (by decide) (by decide)⟩

/-- C7 counterexample: with no row for the subject at lookup time and a concurrent
caller's insert landing before our INSERT, `User.findOrCreate` propagates the
uniqueness-violation error instead of returning the existing user. -/
theorem findOrCreate_race_counterexample :
    (findOrCreate db0 profile9 (some otherUser9)).2
      = Except.error "ER_DUP_ENTRY: duplicate firebase_uid" := rfl

/-- C7 amended: `User.findOrCreate` never ends up with duplicate rows for one
subject — the uniqueness constraint rejects the second insert, leaving exactly one
row — but when the insert hits the uniqueness violation the error propagates to the
caller; there is no retry-as-update. -/
theorem findOrCreate_race_error_no_duplicate (db : DB) (p : FirebaseProfile)
    (w : UserRow) (hmiss : findByFirebaseUid db p.uid = none)
    (hw : w.firebase_uid = p.uid) :
    (findOrCreate db p (some w)).2
        = Except.error "ER_DUP_ENTRY: duplicate firebase_uid" ∧
      ((findOrCreate db p (some w)).1.users.filter
        (fun x => x.firebase_uid == p.uid)).length = 1 := by
  have hnone : ∀ x ∈ db.users, (x.firebase_uid == p.uid) = false := by
    intro x hx
    cases hq : x.firebase_uid == p.uid
    · rfl
    · exfalso
      have hfind := List.find?_eq_none.mp hmiss x hx
      simp at hq hfind
      exact hfind hq
  have hanyfalse : (db.users.any fun x => x.firebase_uid == w.firebase_uid) = false := by
    rw [hw]
    cases hq : db.users.any fun x => x.firebase_uid == p.uid
    · rfl
    · rcases List.any_eq_true.mp hq with ⟨x, hx, hxq⟩
      rw [hnone x hx] at hxq
      cases hxq
  have hany2 : ((db.users ++ [{ w with id := db.nextUserId }]).any
      (fun x => x.firebase_uid == p.uid)) = true := by
    rw [List.any_append]
    have : (({ w with id := db.nextUserId } : UserRow).firebase_uid == p.uid) = true := by
      simp [hw]
    simp [this]
  have hrun : findOrCreate db p (some w) =
      ({ db with
          users := db.users ++ [{ w with id := db.nextUserId }]
          nextUserId := db.nextUserId + 1 },
        Except.error "ER_DUP_ENTRY: duplicate firebase_uid") := by
    unfold findOrCreate
    rw [hmiss]
    simp only [hanyfalse, Bool.false_eq_true, if_false]
    unfold createUser insertUser
    simp only [hany2, if_true]
  rw [hrun]
  have hf1 : db.users.filter (fun x => x.firebase_uid == p.uid) = [] := by
    rw [List.filter_eq_nil_iff]
    intro x hx
    simp [hnone x hx]
  refine ⟨rfl, ?_⟩
  rw [List.filter_append, hf1]
  simp [hw]

/-- Witness for the amended C7 at a concrete input. -/
theorem findOrCreate_race_error_no_duplicate_witness :
    (findByFirebaseUid db0 profile9.uid = none ∧ otherUser9.firebase_uid = profile9.uid) ∧
      ((findOrCreate db0 profile9 (some otherUser9)).2
          = Except.error "ER_DUP_ENTRY: duplicate firebase_uid" ∧
        ((findOrCreate db0 profile9 (some otherUser9)).1.users.filter
          (fun x => x.firebase_uid == profile9.uid)).length = 1) :=
  ⟨⟨by decide, by decide⟩,
    findOrCreate_race_error_no_duplicate db0 profile9 otherUser9 (by decide) (by decide)⟩

/-- C8 counterexample: creating one event with one attached contact whose insert
fails makes the call error, yet the freshly inserted event row is still visible in
the store afterwards — it was not rolled back. -/
theorem createCalendarEvent_partial_counterexample :
    ((createCalendarEvent db0 "U1" sampleNewEvent [contactIn1] (some 0)).2
        = Except.error
          "Failed to create calendar event: Error creating multiple event contacts: insert failed") ∧
      ((createCalendarEvent db0 "U1" sampleNewEvent [contactIn1] (some 0)).1.events.any
        (fun r => r.event_id == "N1" && r.user_id == 1)) = true := by
  constructor <;> rfl

/-- C8 amended: when storing the attached contacts fails after the event row was
inserted, `createCalendarEvent` fails as a storage-layer error and no contact row
of the call is visible (the contacts transaction alone rolls back), but the event
row — inserted by an auto-committed statement outside any enclosing transaction —
remains visible in the store. -/
theorem createCalendarEvent_contacts_failure_event_remains (db : DB) (fuid : String)
    (user : UserRow) (ev : NewEventIn) (cs : List ContactIn) (k : Nat)
    (hu : findByFirebaseUid db fuid = some user)
    (hnew : (db.events.any fun r => r.event_id == ev.id && r.user_id == user.id) = false)
    (hk : k < cs.length) :
    (∃ msg, (createCalendarEvent db fuid ev cs (some k)).2 = Except.error msg) ∧
      (createCalendarEvent db fuid ev cs (some k)).1.contacts = db.contacts ∧
      (createCalendarEvent db fuid ev cs (some k)).1.events.length
        = db.events.length + 1 ∧
      hasEvent ((createCalendarEvent db fuid ev cs (some k)).1) user.id ev.id = true := by
  have hcs : cs.isEmpty = false := by
    cases cs
    · simp at hk
    · rfl
  refine ⟨⟨"Failed to create calendar event: Error creating multiple event contacts: insert failed", ?_⟩, ?_, ?_, ?_⟩ <;>
    simp [createCalendarEvent, hu, createEvent, hnew, createMultipleContacts, hcs, hk,
      hasEvent, List.any_append]

/-- Witness for the amended C8 at a concrete input. -/
theorem createCalendarEvent_contacts_failure_event_remains_witness :
    (findByFirebaseUid db0 "U1" = some sampleUser ∧
        (db0.events.any fun r => r.event_id == sampleNewEvent.id && r.user_id == sampleUser.id)
          = false ∧ 0 < [contactIn1].length) ∧
      ((∃ msg, (createCalendarEvent db0 "U1" sampleNewEvent [contactIn1] (some 0)).2
          = Except.error msg) ∧
        (createCalendarEvent db0 "U1" sampleNewEvent [contactIn1] (some 0)).1.contacts
          = db0.contacts ∧
        (createCalendarEvent db0 "U1" sampleNewEvent [contactIn1] (some 0)).1.events.length
          = db0.events.length + 1 ∧
        hasEvent ((createCalendarEvent db0 "U1" sampleNewEvent [contactIn1] (some 0)).1)
          sampleUser.id sampleNewEvent.id = true) :=
  ⟨⟨by decide, by decide, by decide⟩,
    createCalendarEvent_contacts_failure_event_remains db0 "U1" sampleUser
      sampleNewEvent [contactIn1] 0 (by decide) (by decide) (by decide)⟩

/-- C9 counterexample: a parsed model output carrying every key except `endDate`
passes the shape check of `parseCalendarIntent`, even though `endDate` belongs to
the claim's fixed required field set — so the check does not fail exactly when a
member of that set is missing. -/
theorem requiredKeys_missing_endDate_counterexample :
    hasAllRequiredKeys ["action", "startDate", "timeStart", "timeEnd", "title",
        "location", "contacts", "recurrence", "notes", "isPrivate"] = true ∧
      "endDate" ∈ claimedRequiredKeys ∧
      "endDate" ∉ ["action", "startDate", "timeStart", "timeEnd", "title", "location",
        "contacts", "recurrence", "notes", "isPrivate"] := by
  refine ⟨by decide, by decide, by decide⟩

/-- C9 amended: the shape check of `parseCalendarIntent` fails exactly when the
parsed output lacks some member of the source's required key list — action,
startDate, timeStart, timeEnd, title, location, contacts, recurrence, notes,
isPrivate; the end date bound is NOT part of the required set. -/
theorem requiredKeys_check_characterization (ks : List String) :
    hasAllRequiredKeys ks = false ↔ ∃ k ∈ requiredKeys, k ∉ ks := by
  constructor
  · intro h
    by_contra hc
    push_neg at hc
    have hall : hasAllRequiredKeys ks = true := by
      unfold hasAllRequiredKeys
      rw [List.all_eq_true]
      intro k hk
      simpa using hc k hk
    rw [h] at hall
    cases hall
  · rintro ⟨k, hk, hnot⟩
    cases hA : hasAllRequiredKeys ks
    · rfl
    · exfalso
      unfold hasAllRequiredKeys at hA
      have hcontains := List.all_eq_true.mp hA k hk
      simp at hcontains
      exact hnot hcontains

lemma map_comp_eq {α β : Type} (l : List α) (g : α → α) (f : α → β)
    (h : ∀ a, f (g a) = f a) : (l.map g).map f = l.map f := by
  induction l with
  | nil => rfl
  | cons a t ih => simp [h a, ih]

lemma eventsOf_upsertEvent (db : DB) (u : Nat) (f : String) (e : SyncEvent) (v : Nat)
    (hv : v ≠ u) : eventsOf (upsertEvent db u f e) v = eventsOf db v := by
  by_cases hhas : hasEvent db u e.id = true
  · rw [upsertEvent_pos db u f e hhas]
    unfold eventsOf
    apply filter_map_inv
    · intro a
      split <;> rfl
    · intro a hpa
      simp at hpa
      rw [if_neg]
      simp [hpa]
      intro _
      exact hv
  · rw [upsertEvent_neg db u f e hhas]
    unfold eventsOf
    rw [List.filter_append]
    have hnil : [newRow db.nextEventRid u f e].filter (fun r => r.user_id == v) = [] := by
      simp [newRow]
      exact fun hh => hv hh.symm
    rw [hnil, List.append_nil]

lemma eventsOf_upsertFold (db : DB) (u : Nat) (f : String) (S : List SyncEvent)
    (v : Nat) (hv : v ≠ u) : eventsOf (upsertFold db u f S) v = eventsOf db v := by
  induction S generalizing db with
  | nil => rfl
  | cons e S ih =>
    rw [upsertFold_cons, ih _, eventsOf_upsertEvent db u f e v hv]

lemma eventsOf_pruneStep (db : DB) (u : Nat) (ids : List String) (v : Nat)
    (hv : v ≠ u) : eventsOf (pruneStep db u ids) v = eventsOf db v := by
  rw [pruneStep_eq]
  unfold eventsOf deleteEventsWhere
  apply filter_filter_inv
  intro a ha
  simp at ha
  simp [ha]
  exact Or.inl hv

lemma contacts_upsertEvent (db : DB) (u : Nat) (f : String) (e : SyncEvent) :
    (upsertEvent db u f e).contacts = db.contacts := by
  unfold upsertEvent
  split <;> rfl

lemma contacts_upsertFold (db : DB) (u : Nat) (f : String) (S : List SyncEvent) :
    (upsertFold db u f S).contacts = db.contacts := by
  induction S generalizing db with
  | nil => rfl
  | cons e S ih =>
    rw [upsertFold_cons, ih _, contacts_upsertEvent]

lemma ownsRid_upsertEvent (db : DB) (u : Nat) (f : String) (e : SyncEvent) (v x : Nat)
    (hv : v ≠ u) : ownsRid (upsertEvent db u f e) v x = ownsRid db v x := by
  by_cases hhas : hasEvent db u e.id = true
  · rw [upsertEvent_pos db u f e hhas]
    unfold ownsRid
    apply any_map_inv
    intro a
    split <;> rfl
  · rw [upsertEvent_neg db u f e hhas]
    unfold ownsRid
    rw [List.any_append]
    have hnil : [newRow db.nextEventRid u f e].any (fun r => r.user_id == v && r.rid == x)
        = false := by
      simp [newRow]
      exact fun hh => absurd hh.symm hv
    rw [hnil, Bool.or_false]

lemma ownsRid_upsertFold (db : DB) (u : Nat) (f : String) (S : List SyncEvent)
    (v x : Nat) (hv : v ≠ u) : ownsRid (upsertFold db u f S) v x = ownsRid db v x := by
  induction S generalizing db with
  | nil => rfl
  | cons e S ih =>
    rw [upsertFold_cons, ih _, ownsRid_upsertEvent db u f e v x hv]

lemma ownsRid_pruneStep (db : DB) (u : Nat) (ids : List String) (v x : Nat)
    (hv : v ≠ u) : ownsRid (pruneStep db u ids) v x = ownsRid db v x := by
  rw [pruneStep_eq]
  unfold ownsRid deleteEventsWhere
  apply any_filter_inv
  intro a ha
  simp at ha
  simp [ha.1]
  exact Or.inl hv

lemma ridsOk_upsertEvent (db : DB) (u : Nat) (f : String) (e : SyncEvent)
    (h : ridsOk db) : ridsOk (upsertEvent db u f e) := by
  rcases h with ⟨hnd, hlt⟩
  by_cases hhas : hasEvent db u e.id = true
  · rw [upsertEvent_pos db u f e hhas]
    constructor
    · show ((db.events.map _).map EventRow.rid).Nodup
      rw [map_comp_eq db.events _ EventRow.rid (by intro a; split <;> rfl)]
      exact hnd
    · intro r hr
      rcases List.mem_map.mp hr with ⟨a, ha, rfl⟩
      have hlta := hlt a ha
      split <;> simpa using hlta
  · rw [upsertEvent_neg db u f e hhas]
    constructor
    · show ((db.events ++ [newRow db.nextEventRid u f e]).map EventRow.rid).Nodup
      rw [List.map_append, List.nodup_append]
      refine ⟨hnd, by simp, ?_⟩
      intro a ha hb
      simp [newRow] at hb
      rcases List.mem_map.mp ha with ⟨r, hr, rfl⟩
      exact absurd (hb ▸ hlt r hr) (lt_irrefl _)
    · intro r hr
      rcases List.mem_append.mp hr with h1 | h1
      · exact Nat.lt_succ_of_lt (hlt r h1)
      · have h2 := List.mem_singleton.mp h1
        subst h2
        exact Nat.lt_succ_self _

lemma ridsOk_upsertFold (db : DB) (u : Nat) (f : String) (S : List SyncEvent)
    (h : ridsOk db) : ridsOk (upsertFold db u f S) := by
  induction S generalizing db with
  | nil => exact h
  | cons e S ih =>
    rw [upsertFold_cons]
    exact ih _ (ridsOk_upsertEvent db u f e h)

lemma mem_upsertFold_of_other (db : DB) (u : Nat) (f : String) (S : List SyncEvent)
    (r : EventRow) (v : Nat) (hv : v ≠ u) (hr : r ∈ db.events) (hru : r.user_id = v) :
    r ∈ (upsertFold db u f S).events := by
  have h1 : r ∈ eventsOf db v := List.mem_filter.mpr ⟨hr, by simp [hru]⟩
  rw [← eventsOf_upsertFold db u f S v hv] at h1
  exact (List.mem_filter.mp h1).1

lemma rid_inj (l : List EventRow) (h : (l.map EventRow.rid).Nodup) {r1 r2 : EventRow}
    (h1 : r1 ∈ l) (h2 : r2 ∈ l) (he : r1.rid = r2.rid) : r1 = r2 :=
  List.inj_on_of_nodup_map h h1 h2 he

/-- C10: a committed `CalendarEvent.syncEvents` call for owner `u` leaves the stored
events and the attached contacts of every other user `v` completely unchanged —
both the upsert loop and the prune delete touch only rows belonging to `u`
(well-formedness of the auto-increment ids assumed). -/
theorem syncEvents_frame (db : DB) (S : List SyncEvent) (u : Nat) (f : String)
    (v : Nat) (hv : v ≠ u) (hwf : ridsOk db) :
    eventsOf ((syncEvents db S u f none).1) v = eventsOf db v ∧
      contactsOf ((syncEvents db S u f none).1) v = contactsOf db v := by
  constructor
  · show eventsOf (syncEventsCommit db S u f) v = eventsOf db v
    unfold syncEventsCommit
    rw [eventsOf_pruneStep _ _ _ _ hv, eventsOf_upsertFold db u f S v hv]
  · show contactsOf (syncEventsCommit db S u f) v = contactsOf db v
    have hwf1 : ridsOk (upsertFold db u f S) := ridsOk_upsertFold db u f S hwf
    have howns : ∀ x, ownsRid (syncEventsCommit db S u f) v x = ownsRid db v x := by
      intro x
      unfold syncEventsCommit
      rw [ownsRid_pruneStep _ _ _ _ _ hv, ownsRid_upsertFold db u f S v x hv]
    unfold contactsOf
    have hpred : (fun (c : ContactRow) => ownsRid (syncEventsCommit db S u f) v c.event_id)
        = (fun c => ownsRid db v c.event_id) := funext (fun c => howns c.event_id)
    rw [hpred]
    have hc1 : (syncEventsCommit db S u f).contacts
        = db.contacts.filter (fun c =>
            !(((upsertFold db u f S).events.filter (fun r => r.user_id == u &&
              !((S.map SyncEvent.id).contains r.event_id))).any
                (fun r => r.rid == c.event_id))) := by
      unfold syncEventsCommit
      rw [pruneStep_eq]
      unfold deleteEventsWhere
      rw [contacts_upsertFold]
    rw [hc1]
    apply filter_filter_inv
    intro c hp
    simp only [] at hp
    unfold ownsRid at hp
    cases hany : ((upsertFold db u f S).events.filter (fun r => r.user_id == u &&
        !((S.map SyncEvent.id).contains r.event_id))).any
          (fun r => r.rid == c.event_id)
    · rfl
    · exfalso
      rcases List.any_eq_true.mp hany with ⟨r1, hr1, hr1x⟩
      rcases List.mem_filter.mp hr1 with ⟨hr1D, hr1q⟩
      simp at hr1q hr1x
      rcases List.any_eq_true.mp hp with ⟨r2, hr2, hr2q⟩
      simp at hr2q
      have hr2D : r2 ∈ (upsertFold db u f S).events :=
        mem_upsertFold_of_other db u f S r2 v hv hr2 hr2q.1
      have heq : r1 = r2 := rid_inj _ hwf1.1 hr1D hr2D (by rw [hr1x, hr2q.2])
      rw [heq] at hr1q
      exact hv (hr2q.1.symm.trans hr1q.1)

/-- Witness for C10 at a concrete input: syncing user 1 leaves user 2's event and
its attached contact unchanged. -/
theorem syncEvents_frame_witness :
    ((2 : Nat) ≠ 1 ∧ ridsOk dbW) ∧
      (eventsOf ((syncEvents dbW [sampleEvent] 1 "U1" none).1) 2 = eventsOf dbW 2 ∧
        contactsOf ((syncEvents dbW [sampleEvent] 1 "U1" none).1) 2 = contactsOf dbW 2) :=
  ⟨⟨by decide, by unfold ridsOk; decide⟩,
    syncEvents_frame dbW [sampleEvent] 1 "U1" 2 (by decide) (by unfold ridsOk; decide)⟩

end Tempo
